import Mathlib

/-! Shallow embedding of the solana-new-token-monitor core: the pool scoring
    engine (both evaluator variants present in src/poolEvaluator.js), the exit
    policy, pool deduplication (src/yieldFarmingBot.js and src/config.js), and
    the portfolio ledger (src/portfolioManager.js).  JavaScript numbers are
    modelled as rationals; JS Date values are millisecond timestamps passed
    explicitly as a now parameter; log strings are modelled as tag values, one
    tag per push site in the source. -/

/-- Token descriptor inside a pool record.  The evaluator reads mint and
    amount; symbol and decimals are log-only and omitted. -/
structure TokenInfo where
  mint : String
  amount : ℚ
  deriving DecidableEq, Repr

/-- Normalized pool record (PoolInfo in src/types), restricted to the fields
    the core logic reads. -/
structure PoolInfo where
  poolId : String
  baseToken : TokenInfo
  quoteToken : TokenInfo
  apy : ℚ
  tvl : ℚ
  volume24h : ℚ
  price : ℚ
  createdAt : ℚ
  deriving DecidableEq, Repr

/-- Bot configuration (BotConfig in src/config.js DEFAULT_BOT_CONFIG shape). -/
structure BotConfig where
  minApy : ℚ
  minTvl : ℚ
  minVolume24h : ℚ
  maxPositions : Nat
  positionSize : ℚ
  exitApyThreshold : ℚ
  stopLossPercentage : ℚ
  takeProfitPercentage : ℚ
  maxHoldingTime : ℚ
  maxTotalInvestment : ℚ
  riskPerPosition : ℚ
  deriving DecidableEq, Repr

/-- DEFAULT_BOT_CONFIG from src/config.js. -/
def DEFAULT_BOT_CONFIG : BotConfig :=
  { minApy := 20
    minTvl := 100
    minVolume24h := 1000
    maxPositions := 5
    positionSize := 1000
    exitApyThreshold := 10
    stopLossPercentage := -15
    takeProfitPercentage := 25
    maxHoldingTime := 168
    maxTotalInvestment := 10000
    riskPerPosition := 10 }

/-- Pool evaluation thresholds object exported by src/config.js.  The third
    field is named MIN_LIQUIDITY_RATIO in the source. -/
structure PoolEvaluationThresholds where
  MIN_AGE_HOURS : ℚ
  MAX_AGE_HOURS : ℚ
  minLiquidityRatio : ℚ
  MAX_PRICE_IMPACT : ℚ
  MIN_TRANSACTION_COUNT : Nat
  deriving DecidableEq, Repr

/-- exports.POOL_EVALUATION from src/config.js (0.3 written as 3/10). -/
def POOL_EVALUATION : PoolEvaluationThresholds :=
  { MIN_AGE_HOURS := 1
    MAX_AGE_HOURS := 72
    minLiquidityRatio := 3 / 10
    MAX_PRICE_IMPACT := 5
    MIN_TRANSACTION_COUNT := 10 }

/-- Pool evaluation thresholds of the decision-phase (TS) evaluator variant,
    from the monitoring configuration module. -/
structure PoolEvaluationThresholdsTS where
  MIN_APY : ℚ
  MIN_TVL : ℚ
  MIN_VOLUME_24H : ℚ
  MIN_AGE_HOURS : ℚ
  MAX_AGE_HOURS : ℚ
  SWEET_SPOT_AGE_HOURS : ℚ
  HIGH_INCENTIVE_THRESHOLD : ℚ
  HIGH_VOLUME_THRESHOLD : ℚ
  MIN_SCORE_TO_ENTER : ℤ
  deriving DecidableEq, Repr

/-- POOL_EVALUATION constant of the decision-phase configuration. -/
def POOL_EVALUATION_TS : PoolEvaluationThresholdsTS :=
  { MIN_APY := 100
    MIN_TVL := 50
    MIN_VOLUME_24H := 500
    MIN_AGE_HOURS := 1
    MAX_AGE_HOURS := 72
    SWEET_SPOT_AGE_HOURS := 24
    HIGH_INCENTIVE_THRESHOLD := 200
    HIGH_VOLUME_THRESHOLD := 5000
    MIN_SCORE_TO_ENTER := 100 }

/-- getPoolAgeHours from src/poolEvaluator.js: (Date.now() - createdAt) in
    hours, with timestamps in milliseconds. -/
def getPoolAgeHours (now : ℚ) (pool : PoolInfo) : ℚ :=
  (now - pool.createdAt) / (1000 * 60 * 60)

/-- calculateLiquidityRatio from src/poolEvaluator.js lines 173-181:
    baseValue = baseToken.amount * price, quoteValue = quoteToken.amount,
    returns 0 when totalValue is 0, else (min / total) * 2. -/
def calculateLiquidityRatio (pool : PoolInfo) : ℚ :=
  let baseValue := pool.baseToken.amount * pool.price
  let quoteValue := pool.quoteToken.amount
  let totalValue := baseValue + quoteValue
  if totalValue = 0 then 0
  else (min baseValue quoteValue / totalValue) * 2

/-- Reason strings pushed by the first (JS) evaluator variant, one tag per
    push site. -/
inductive ReasonJS
  | apyPass | apyFail | tvlPass | tvlFail | volumePass | volumeFail
  | agePass | goodLiquidity | exceptionalApy | highVolume
  deriving DecidableEq, Repr

/-- Warning strings pushed by the first (JS) evaluator variant. -/
inductive WarningJS
  | poolVeryNew | poolOld | unbalancedLiquidity | extremeApy | lowTvlVsVolume
  deriving DecidableEq, Repr

/-- Return shape of the first (JS) evaluator variant. -/
structure PoolEvaluationResult where
  shouldEnter : Bool
  score : ℤ
  reasons : List ReasonJS
  warnings : List WarningJS
  deriving DecidableEq, Repr

/-- evaluatePoolForEntry of the first PoolEvaluator class in
    src/poolEvaluator.js (lines 17-109): three hard gates with early return,
    then age scoring, liquidity-balance scoring, bonus scoring and red-flag
    penalties; shouldEnter iff score is at least 70. -/
def evaluatePoolForEntryJS (config : BotConfig) (now : ℚ) (pool : PoolInfo) :
    PoolEvaluationResult :=
  if pool.apy ≥ config.minApy then
    if pool.tvl ≥ config.minTvl then
      if pool.volume24h ≥ config.minVolume24h then
        let ageHours := getPoolAgeHours now pool
        let ageRes : ℤ × List ReasonJS × List WarningJS :=
          if ageHours ≥ POOL_EVALUATION.MIN_AGE_HOURS ∧
             ageHours ≤ POOL_EVALUATION.MAX_AGE_HOURS then
            (15, [.agePass], [])
          else if ageHours < POOL_EVALUATION.MIN_AGE_HOURS then
            (5, [], [.poolVeryNew])
          else
            (5, [], [.poolOld])
        let liquidityRatio := calculateLiquidityRatio pool
        let liqRes : ℤ × List ReasonJS × List WarningJS :=
          if liquidityRatio ≥ POOL_EVALUATION.minLiquidityRatio then
            (10, [.goodLiquidity], [])
          else
            (3, [], [.unbalancedLiquidity])
        let apyBonus : ℤ × List ReasonJS :=
          if pool.apy > config.minApy * 2 then (10, [.exceptionalApy]) else (0, [])
        let volBonus : ℤ × List ReasonJS :=
          if pool.volume24h > config.minVolume24h * 5 then (5, [.highVolume]) else (0, [])
        let apyFlag : ℤ × List WarningJS :=
          if pool.apy > 100 then (20, [.extremeApy]) else (0, [])
        let tvlFlag : ℤ × List WarningJS :=
          if pool.tvl < pool.volume24h * (1 / 10) then (10, [.lowTvlVsVolume]) else (0, [])
        let score : ℤ :=
          25 + 20 + 20 + ageRes.1 + liqRes.1 + apyBonus.1 + volBonus.1
            - apyFlag.1 - tvlFlag.1
        { shouldEnter := decide (score ≥ 70)
          score := score
          reasons := [.apyPass, .tvlPass, .volumePass] ++ ageRes.2.1 ++ liqRes.2.1
                       ++ apyBonus.2 ++ volBonus.2
          warnings := ageRes.2.2 ++ liqRes.2.2 ++ apyFlag.2 ++ tvlFlag.2 }
      else
        { shouldEnter := false, score := 25 + 20
          reasons := [.apyPass, .tvlPass, .volumeFail], warnings := [] }
    else
      { shouldEnter := false, score := 25
        reasons := [.apyPass, .tvlFail], warnings := [] }
  else
    { shouldEnter := false, score := 0
      reasons := [.apyFail], warnings := [] }

/-- Reason strings pushed by the decision-phase (TS) evaluator variant. -/
inductive ReasonTS
  | apyPass | apyFail | tvlPass | tvlFail | volumePass | volumeFail
  | ageSweetSpot | ageAcceptable | ultraFresh
  | ultraHighIncentive | highIncentive
  | highVolume | goodVolume | earlyEntry | sustainable
  deriving DecidableEq, Repr

/-- Warning strings pushed by the decision-phase (TS) evaluator variant. -/
inductive WarningTS
  | tooNew | tooOld | veryHighApy
  deriving DecidableEq, Repr

/-- Decision values of the decision-phase evaluator. -/
inductive Decision
  | ENTER | SKIP
  deriving DecidableEq, Repr

/-- PoolEvaluation return shape of the decision-phase evaluator (the
    timestamp field, a wall-clock Date, is omitted). -/
structure PoolEvaluation where
  poolId : String
  score : ℤ
  decision : Decision
  reasons : List ReasonTS
  warnings : List WarningTS
  deriving DecidableEq, Repr

/-- evaluatePoolForEntry of the exported (TS) PoolEvaluator class in
    src/poolEvaluator.js (lines 348-481): three hard gates each returning
    score 0, decision SKIP and a single reason on failure, then age analysis,
    incentive and volume bonuses, risk/reward and sustainability bonuses;
    decision ENTER iff score is at least MIN_SCORE_TO_ENTER. -/
def evaluatePoolForEntryTS (now : ℚ) (pool : PoolInfo) : PoolEvaluation :=
  if pool.apy ≥ POOL_EVALUATION_TS.MIN_APY then
    if pool.tvl ≥ POOL_EVALUATION_TS.MIN_TVL then
      if pool.volume24h ≥ POOL_EVALUATION_TS.MIN_VOLUME_24H then
        let ageHours := (now - pool.createdAt) / (1000 * 60 * 60)
        let ageRes : ℤ × List ReasonTS × List WarningTS :=
          if ageHours ≥ POOL_EVALUATION_TS.MIN_AGE_HOURS ∧
             ageHours ≤ POOL_EVALUATION_TS.MAX_AGE_HOURS then
            let base : ℤ × List ReasonTS :=
              if ageHours ≤ POOL_EVALUATION_TS.SWEET_SPOT_AGE_HOURS then
                (20, [.ageSweetSpot])
              else
                (10, [.ageAcceptable])
            let fresh : ℤ × List ReasonTS :=
              if ageHours ≤ 12 then (15, [.ultraFresh]) else (0, [])
            (base.1 + fresh.1, base.2 ++ fresh.2, [])
          else if ageHours < POOL_EVALUATION_TS.MIN_AGE_HOURS then
            (0, [], [.tooNew])
          else
            (0, [], [.tooOld])
        let incentive : ℤ × List ReasonTS :=
          if pool.apy ≥ POOL_EVALUATION_TS.HIGH_INCENTIVE_THRESHOLD then
            (25, [.ultraHighIncentive])
          else if pool.apy ≥ 100 then (15, [.highIncentive])
          else (0, [])
        let volumeRes : ℤ × List ReasonTS :=
          if pool.volume24h ≥ POOL_EVALUATION_TS.HIGH_VOLUME_THRESHOLD then
            (15, [.highVolume])
          else if pool.volume24h ≥ POOL_EVALUATION_TS.MIN_VOLUME_24H * 2 then
            (10, [.goodVolume])
          else (0, [])
        let riskReward : ℤ × List ReasonTS :=
          if pool.tvl < 1000 ∧ pool.apy > 150 then (15, [.earlyEntry]) else (0, [])
        let sustainability : ℤ × List ReasonTS :=
          if pool.apy < 1000 ∧ pool.volume24h > pool.tvl * (1 / 10) then
            (10, [.sustainable])
          else (0, [])
        let extremeWarning : List WarningTS :=
          if pool.apy > 1000 then [.veryHighApy] else []
        let score : ℤ :=
          30 + 20 + 20 + ageRes.1 + incentive.1 + volumeRes.1
            + riskReward.1 + sustainability.1
        { poolId := pool.poolId
          score := score
          decision := if score ≥ POOL_EVALUATION_TS.MIN_SCORE_TO_ENTER then .ENTER else .SKIP
          reasons := [.apyPass, .tvlPass, .volumePass] ++ ageRes.2.1 ++ incentive.2
                       ++ volumeRes.2 ++ riskReward.2 ++ sustainability.2
          warnings := ageRes.2.2 ++ extremeWarning }
      else
        { poolId := pool.poolId, score := 0, decision := .SKIP
          reasons := [.volumeFail], warnings := [] }
    else
      { poolId := pool.poolId, score := 0, decision := .SKIP
        reasons := [.tvlFail], warnings := [] }
  else
    { poolId := pool.poolId, score := 0, decision := .SKIP
      reasons := [.apyFail], warnings := [] }

/-- Position status (string literals active / exited in the source). -/
inductive PositionStatus
  | active | exited
  deriving DecidableEq, Repr

/-- Position record from src/portfolioManager.js.  The uuid-v4 id is modelled
    as a Nat drawn from a fresh counter; entry and exit times are millisecond
    timestamps. -/
structure Position where
  id : Nat
  poolId : String
  entryTime : ℚ
  entryPrice : ℚ
  entryApy : ℚ
  amount : ℚ
  currentValue : ℚ
  currentApy : ℚ
  pnl : ℚ
  pnlPercentage : ℚ
  status : PositionStatus
  exitTime : Option ℚ := none
  exitPrice : Option ℚ := none
  exitReason : Option String := none
  deriving DecidableEq, Repr

/-- Exit reason strings of evaluatePositionForExit, one tag per return site. -/
inductive ExitReason
  | stopLoss | takeProfit | apyBelowThreshold | maxHoldingTimeReached
  | apyDecline | lowLiquidity | holdCriteriaMet
  deriving DecidableEq, Repr

/-- Exit urgency levels. -/
inductive Urgency
  | low | medium | high
  deriving DecidableEq, Repr

/-- Return shape of evaluatePositionForExit. -/
structure ExitEvaluation where
  shouldExit : Bool
  reason : ExitReason
  urgency : Urgency
  deriving DecidableEq, Repr

/-- evaluatePositionForExit from src/poolEvaluator.js lines 113-169: ordered
    hard triggers, first match wins; stop loss first, then take profit, APY
    threshold, max holding time, relative APY decline, liquidity risk. -/
def evaluatePositionForExit (config : BotConfig) (now : ℚ) (position : Position)
    (currentPool : PoolInfo) : ExitEvaluation :=
  let holdingTimeHours := (now - position.entryTime) / (1000 * 60 * 60)
  if position.pnlPercentage ≤ config.stopLossPercentage then
    { shouldExit := true, reason := .stopLoss, urgency := .high }
  else if position.pnlPercentage ≥ config.takeProfitPercentage then
    { shouldExit := true, reason := .takeProfit, urgency := .medium }
  else if currentPool.apy < config.exitApyThreshold then
    { shouldExit := true, reason := .apyBelowThreshold, urgency := .medium }
  else if holdingTimeHours ≥ config.maxHoldingTime then
    { shouldExit := true, reason := .maxHoldingTimeReached, urgency := .low }
  else if (position.entryApy - currentPool.apy) / position.entryApy * 100 > 50 then
    { shouldExit := true, reason := .apyDecline, urgency := .medium }
  else if currentPool.tvl < position.amount * 10 then
    { shouldExit := true, reason := .lowLiquidity, urgency := .high }
  else
    { shouldExit := false, reason := .holdCriteriaMet, urgency := .low }

/-- Lookup in the insertion-ordered map used by deduplicatePools (JS Map.get):
    returns the value bound to the first entry with the given key. -/
def mapGet : List (String × PoolInfo) → String → Option PoolInfo
  | [], _ => none
  | kv :: m, k => if kv.1 = k then some kv.2 else mapGet m k

/-- Update in the insertion-ordered map (JS Map.set): replaces the value in
    place when the key is present, else appends a new entry. -/
def mapSet : List (String × PoolInfo) → String → PoolInfo → List (String × PoolInfo)
  | [], k, v => [(k, v)]
  | kv :: m, k, v => if kv.1 = k then (k, v) :: m else kv :: mapSet m k v

/-- One step of the deduplicatePools forEach body from src/yieldFarmingBot.js
    lines 387-396: insert under key pool.poolId when absent or when the stored
    record has a strictly smaller createdAt. -/
def dedupStep (m : List (String × PoolInfo)) (pool : PoolInfo) :
    List (String × PoolInfo) :=
  match mapGet m pool.poolId with
  | none => mapSet m pool.poolId pool
  | some q => if q.createdAt < pool.createdAt then mapSet m pool.poolId pool else m

/-- deduplicatePools from src/yieldFarmingBot.js lines 387-396: fold the
    candidate list into a Map keyed by poolId and return its values. -/
def deduplicatePools (pools : List PoolInfo) : List PoolInfo :=
  (pools.foldl dedupStep []).map Prod.snd

/-- Key string built by PoolMonitor.removeDuplicatePools in src/config.js. -/
def mintPairKey (pool : PoolInfo) : String :=
  pool.baseToken.mint ++ "-" ++ pool.quoteToken.mint

/-- Filter body of removeDuplicatePools with the mutable seen set made
    explicit: a record is kept iff its mint-pair key was not seen before. -/
def removeDuplicatePoolsAux (seen : List String) : List PoolInfo → List PoolInfo
  | [] => []
  | pool :: rest =>
    if mintPairKey pool ∈ seen then removeDuplicatePoolsAux seen rest
    else pool :: removeDuplicatePoolsAux (mintPairKey pool :: seen) rest

/-- PoolMonitor.removeDuplicatePools from src/config.js lines 351-361:
    keep the first record seen for each (baseMint, quoteMint) key. -/
def removeDuplicatePools (pools : List PoolInfo) : List PoolInfo :=
  removeDuplicatePoolsAux [] pools

/-- Well-formedness of the dedup map: every entry is keyed by its record's
    poolId. -/
def mapGood (m : List (String × PoolInfo)) : Prop :=
  ∀ kv ∈ m, kv.2.poolId = kv.1

/-- A record is covered by the dedup map when some entry carries its poolId
    with a creation time at least as late. -/
def coveredBy (m : List (String × PoolInfo)) (p : PoolInfo) : Prop :=
  ∃ kv ∈ m, kv.1 = p.poolId ∧ p.createdAt ≤ kv.2.createdAt

/-- Portfolio record from src/portfolioManager.js. -/
structure Portfolio where
  totalValue : ℚ
  totalInvested : ℚ
  totalPnl : ℚ
  totalPnlPercentage : ℚ
  activePositions : List Position
  closedPositions : List Position
  availableCash : ℚ
  maxPositions : Nat
  deriving DecidableEq, Repr

/-- PortfolioManager state: the portfolio plus a counter supplying the fresh
    identifiers that uuid v4 provides in the source. -/
structure ManagerState where
  portfolio : Portfolio
  nextId : Nat
  deriving DecidableEq, Repr

/-- PortfolioManager constructor (initialCash defaults to 10000 in the
    source; the bot passes config.maxTotalInvestment). -/
def initialManagerState (config : BotConfig) (initialCash : ℚ) : ManagerState :=
  { portfolio :=
      { totalValue := initialCash
        totalInvested := 0
        totalPnl := 0
        totalPnlPercentage := 0
        activePositions := []
        closedPositions := []
        availableCash := initialCash
        maxPositions := config.maxPositions }
    nextId := 0 }

/-- canEnterNewPosition from src/portfolioManager.js lines 223-227. -/
def canEnterNewPosition (config : BotConfig) (portfolio : Portfolio) : Bool :=
  decide (portfolio.activePositions.length < config.maxPositions) &&
  decide (portfolio.availableCash ≥ config.positionSize) &&
  decide (portfolio.totalInvested < config.maxTotalInvestment)

/-- hasPositionInPool from src/portfolioManager.js lines 231-233. -/
def hasPositionInPool (portfolio : Portfolio) (poolId : String) : Bool :=
  portfolio.activePositions.any (fun p => p.poolId == poolId)

/-- enterPosition from src/portfolioManager.js lines 27-76: capacity, cash,
    investment-cap and duplicate-pool checks, then allocate
    min(positionSize, availableCash), push the new active position, debit
    cash and credit totalInvested. -/
def enterPosition (config : BotConfig) (now : ℚ) (s : ManagerState)
    (pool : PoolInfo) : Option Position × ManagerState :=
  if !canEnterNewPosition config s.portfolio then (none, s)
  else if hasPositionInPool s.portfolio pool.poolId then (none, s)
  else
    let positionSize := min config.positionSize s.portfolio.availableCash
    let position : Position :=
      { id := s.nextId
        poolId := pool.poolId
        entryTime := now
        entryPrice := pool.price
        entryApy := pool.apy
        amount := positionSize
        currentValue := positionSize
        currentApy := pool.apy
        pnl := 0
        pnlPercentage := 0
        status := .active }
    (some position,
     { portfolio :=
         { s.portfolio with
             activePositions := s.portfolio.activePositions ++ [position]
             availableCash := s.portfolio.availableCash - positionSize
             totalInvested := s.portfolio.totalInvested + positionSize }
       nextId := s.nextId + 1 })

/-- Combined findIndex plus splice on the active list: returns the first
    position with the given id and the list with that occurrence removed. -/
def removeFirstById : List Position → Nat → Option Position × List Position
  | [], _ => (none, [])
  | p :: ps, positionId =>
    if p.id = positionId then (some p, ps)
    else
      let r := removeFirstById ps positionId
      (r.1, p :: r.2)

/-- exitPosition from src/portfolioManager.js lines 80-125: find the active
    position by id (false and no mutation when absent), mark-to-model with
    full price exposure, move it to closedPositions, credit cash with the
    final value and debit totalInvested by the original amount. -/
def exitPosition (now : ℚ) (s : ManagerState) (positionId : Nat)
    (currentPool : PoolInfo) (reason : String) : Bool × ManagerState :=
  match removeFirstById s.portfolio.activePositions positionId with
  | (none, _) => (false, s)
  | (some position, remaining) =>
    let timeHeldHours := (now - position.entryTime) / (1000 * 60 * 60)
    let apyGain := position.entryApy / 100 / 365 / 24 * timeHeldHours * position.amount
    let priceChange :=
      (currentPool.price - position.entryPrice) / position.entryPrice * position.amount
    let currentValue := position.amount + apyGain + priceChange
    let exited : Position :=
      { position with
          currentValue := currentValue
          pnl := currentValue - position.amount
          pnlPercentage := (currentValue - position.amount) / position.amount * 100
          status := .exited
          exitTime := some now
          exitPrice := some currentPool.price
          exitReason := some reason }
    (true,
     { s with
         portfolio :=
           { s.portfolio with
               availableCash := s.portfolio.availableCash + currentValue
               totalInvested := s.portfolio.totalInvested - position.amount
               closedPositions := s.portfolio.closedPositions ++ [exited]
               activePositions := remaining } })

/-- updatePosition from src/portfolioManager.js lines 129-139, acting on one
    position record: same accrual formula as exit but only 50 percent price
    exposure. -/
def updatePositionRecord (now : ℚ) (position : Position) (currentPool : PoolInfo) :
    Position :=
  let timeHeldHours := (now - position.entryTime) / (1000 * 60 * 60)
  let apyGain := position.entryApy / 100 / 365 / 24 * timeHeldHours * position.amount
  let priceChange :=
    (currentPool.price - position.entryPrice) / position.entryPrice
      * position.amount * (1 / 2)
  let currentValue := position.amount + apyGain + priceChange
  { position with
      currentValue := currentValue
      currentApy := currentPool.apy
      pnl := currentValue - position.amount
      pnlPercentage := (currentValue - position.amount) / position.amount * 100 }

/-- updatePosition lifted to the manager state: the source mutates the
    position object held inside activePositions by reference, modelled here
    as replacing the records with the given id. -/
def updatePosition (now : ℚ) (s : ManagerState) (positionId : Nat)
    (currentPool : PoolInfo) : ManagerState :=
  { s with
      portfolio :=
        { s.portfolio with
            activePositions :=
              s.portfolio.activePositions.map
                (fun p => if p.id = positionId then updatePositionRecord now p currentPool else p) } }

/-- States of one PortfolioManager reachable by any sequence of
    enterPosition, exitPosition and updatePosition calls. -/
inductive Reachable (config : BotConfig) (initialCash : ℚ) : ManagerState → Prop
  | init : Reachable config initialCash (initialManagerState config initialCash)
  | enter (s : ManagerState) (now : ℚ) (pool : PoolInfo) :
      Reachable config initialCash s →
      Reachable config initialCash (enterPosition config now s pool).2
  | exit (s : ManagerState) (now : ℚ) (positionId : Nat) (currentPool : PoolInfo)
      (reason : String) :
      Reachable config initialCash s →
      Reachable config initialCash (exitPosition now s positionId currentPool reason).2
  | update (s : ManagerState) (now : ℚ) (positionId : Nat) (currentPool : PoolInfo) :
      Reachable config initialCash s →
      Reachable config initialCash (updatePosition now s positionId currentPool)

/-! Concrete inputs used by witnesses and counterexamples. -/

/-- Pool failing the decision-phase APY gate (apy 50 against minimum 100). -/
def c1pool : PoolInfo :=
  { poolId := "c1", baseToken := { mint := "B", amount := 1 }
    quoteToken := { mint := "Q", amount := 1 }
    apy := 50, tvl := 10000, volume24h := 10000, price := 1, createdAt := 0 }

/-- Gate-passing pool with apy 99, just below the red-flag ceiling. -/
def c2poolApyLo : PoolInfo :=
  { poolId := "c2a", baseToken := { mint := "B", amount := 1000 }
    quoteToken := { mint := "Q", amount := 1000 }
    apy := 99, tvl := 10000, volume24h := 1000, price := 1, createdAt := 0 }

/-- Same pool with apy raised to 101, just above the red-flag ceiling. -/
def c2poolApyHi : PoolInfo := { c2poolApyLo with apy := 101 }

/-- Gate-passing pool whose TVL sits exactly at ten times its volume. -/
def c2poolVolLo : PoolInfo :=
  { poolId := "c2v", baseToken := { mint := "B", amount := 1000 }
    quoteToken := { mint := "Q", amount := 1000 }
    apy := 30, tvl := 100, volume24h := 1000, price := 1, createdAt := 0 }

/-- Same pool with volume raised to 1001, tripping the low-TVL red flag. -/
def c2poolVolHi : PoolInfo := { c2poolVolLo with volume24h := 1001 }

/-- Two candidate records sharing the (baseMint, quoteMint) pair but with
    distinct pool ids; the second is the more recently created. -/
def c3r1 : PoolInfo :=
  { poolId := "p1", baseToken := { mint := "M1", amount := 1 }
    quoteToken := { mint := "M2", amount := 1 }
    apy := 0, tvl := 0, volume24h := 0, price := 1, createdAt := 100 }

/-- Later-created record with the same mint pair as c3r1. -/
def c3r2 : PoolInfo := { c3r1 with poolId := "p2", createdAt := 200 }

/-- Configuration whose position size is close to the investment cap. -/
def cfg4 : BotConfig := { DEFAULT_BOT_CONFIG with positionSize := 3000 }

/-- Distinct pools for the investment-cap run. -/
def c4poolA : PoolInfo :=
  { poolId := "A", baseToken := { mint := "B", amount := 1 }
    quoteToken := { mint := "Q", amount := 1 }
    apy := 50, tvl := 100000, volume24h := 10000, price := 1, createdAt := 0 }

/-- Second pool of the investment-cap run. -/
def c4poolB : PoolInfo := { c4poolA with poolId := "B2" }

/-- Third pool of the investment-cap run. -/
def c4poolC : PoolInfo := { c4poolA with poolId := "C2" }

/-- Fourth pool of the investment-cap run. -/
def c4poolD : PoolInfo := { c4poolA with poolId := "D2" }

/-- Fifth pool of the investment-cap run. -/
def c4poolE : PoolInfo := { c4poolA with poolId := "E2" }

/-- Snapshot of pool A at exit time with the price doubled. -/
def c4poolAExit : PoolInfo := { c4poolA with price := 2 }

/-- Investment-cap run, step 1: enter pool A. -/
def c4s1 : ManagerState :=
  (enterPosition cfg4 0 (initialManagerState cfg4 10000) c4poolA).2

/-- Step 2: enter pool B. -/
def c4s2 : ManagerState := (enterPosition cfg4 0 c4s1 c4poolB).2

/-- Step 3: enter pool C. -/
def c4s3 : ManagerState := (enterPosition cfg4 0 c4s2 c4poolC).2

/-- Step 4: exit the pool-A position (id 0) at doubled price. -/
def c4s4 : ManagerState := (exitPosition 0 c4s3 0 c4poolAExit "take profit").2

/-- Step 5: enter pool D. -/
def c4s5 : ManagerState := (enterPosition cfg4 0 c4s4 c4poolD).2

/-- Step 6: enter pool E; totalInvested now exceeds the configured cap. -/
def c4s6 : ManagerState := (enterPosition cfg4 0 c4s5 c4poolE).2

/-- Configuration in which the stop-loss threshold sits above the take-profit
    threshold, so both triggers can hold at once. -/
def c5config : BotConfig :=
  { DEFAULT_BOT_CONFIG with stopLossPercentage := 5, takeProfitPercentage := 3 }

/-- Position whose P&L percentage satisfies both triggers of c5config. -/
def c5position : Position :=
  { id := 0, poolId := "p", entryTime := 0, entryPrice := 1, entryApy := 20
    amount := 1000, currentValue := 1040, currentApy := 20, pnl := 40
    pnlPercentage := 4, status := .active }

/-- Healthy pool snapshot (no other exit trigger fires on it). -/
def c5pool : PoolInfo :=
  { poolId := "p", baseToken := { mint := "B", amount := 1 }
    quoteToken := { mint := "Q", amount := 1 }
    apy := 50, tvl := 100000, volume24h := 1000, price := 1, createdAt := 0 }

/-- Active position for the exit-formula scenario: entry yield 20 percent,
    entry price 1, amount 1000. -/
def c6position : Position :=
  { id := 7, poolId := "pool6", entryTime := 0, entryPrice := 1, entryApy := 20
    amount := 1000, currentValue := 1000, currentApy := 20, pnl := 0
    pnlPercentage := 0, status := .active }

/-- Manager state holding exactly the c6position. -/
def c6state : ManagerState :=
  { portfolio :=
      { totalValue := 10000, totalInvested := 1000, totalPnl := 0
        totalPnlPercentage := 0, activePositions := [c6position]
        closedPositions := [], availableCash := 9000, maxPositions := 5 }
    nextId := 8 }

/-- Exit-time snapshot of pool6 at price 1.2 (written 6/5). -/
def c6pool : PoolInfo :=
  { poolId := "pool6", baseToken := { mint := "B", amount := 1 }
    quoteToken := { mint := "Q", amount := 1 }
    apy := 20, tvl := 100000, volume24h := 1000, price := 6 / 5, createdAt := 0 }

/-- Pool targeted by the already-held position of c6state. -/
def c7pool : PoolInfo :=
  { poolId := "pool6", baseToken := { mint := "B", amount := 1 }
    quoteToken := { mint := "Q", amount := 1 }
    apy := 50, tvl := 100000, volume24h := 10000, price := 1, createdAt := 0 }

/-- Pool record with zero reserves on both sides: base value equals quote
    value, yet the liquidity ratio is 0, not 1. -/
def c9pool : PoolInfo :=
  { poolId := "zero", baseToken := { mint := "B", amount := 0 }
    quoteToken := { mint := "Q", amount := 0 }
    apy := 0, tvl := 0, volume24h := 0, price := 1, createdAt := 0 }

/-- Perfectly balanced pool record with nonzero reserves. -/
def c9wpool : PoolInfo :=
  { poolId := "bal", baseToken := { mint := "B", amount := 5 }
    quoteToken := { mint := "Q", amount := 5 }
    apy := 0, tvl := 0, volume24h := 0, price := 1, createdAt := 0 }

/-- Position created by entering c5pool from the fresh default state. -/
def c10pos : Position :=
  { id := 0, poolId := "p", entryTime := 0, entryPrice := 1, entryApy := 50
    amount := 1000, currentValue := 1000, currentApy := 50, pnl := 0
    pnlPercentage := 0, status := .active }

/-- Manager state after that entry. -/
def c10state : ManagerState :=
  { portfolio :=
      { totalValue := 10000, totalInvested := 1000, totalPnl := 0
        totalPnlPercentage := 0, activePositions := [c10pos]
        closedPositions := [], availableCash := 9000, maxPositions := 5 }
    nextId := 1 }

/-! Theorems. -/

/-- C8: calculateLiquidityRatio returns exactly
    2 * min(baseValue, quoteValue) / (baseValue + quoteValue) with
    baseValue = baseAmount * price and quoteValue = quoteAmount, and the
    division is total: when baseValue + quoteValue is 0 the function returns
    0 instead of dividing. -/
theorem C8_liquidity_ratio_total_formula (pool : PoolInfo) :
    calculateLiquidityRatio pool =
      if pool.baseToken.amount * pool.price + pool.quoteToken.amount = 0 then 0
      else
        2 * min (pool.baseToken.amount * pool.price) pool.quoteToken.amount /
          (pool.baseToken.amount * pool.price + pool.quoteToken.amount) := by
  unfold calculateLiquidityRatio
  by_cases h : pool.baseToken.amount * pool.price + pool.quoteToken.amount = 0
  · simp [h]
  · simp only [h, if_false]
    ring

/-- C9 counterexample: the all-zero pool record has equal base-side and
    quote-side values and non-negative amounts and price, yet its liquidity
    ratio is 0, not 1, so the claimed equivalence fails in the zero case. -/
theorem C9_counterexample_zero_pool :
    0 ≤ c9pool.baseToken.amount ∧ 0 ≤ c9pool.quoteToken.amount ∧
    0 ≤ c9pool.price ∧
    c9pool.baseToken.amount * c9pool.price = c9pool.quoteToken.amount ∧
    calculateLiquidityRatio c9pool = 0 ∧ calculateLiquidityRatio c9pool ≠ 1 := by
  refine ⟨by norm_num [c9pool], by norm_num [c9pool], by norm_num [c9pool], ?_, ?_, ?_⟩
  · norm_num [c9pool]
  · norm_num [c9pool, calculateLiquidityRatio]
  · norm_num [c9pool, calculateLiquidityRatio]

/-- C9 amended: for non-negative amounts and price the liquidity ratio lies
    in [0, 1], and it equals 1 exactly when the base-side value equals the
    quote-side value and the total value is nonzero (for the all-zero record
    the guard returns 0). -/
theorem C9_ratio_bounds (pool : PoolInfo)
    (hb : 0 ≤ pool.baseToken.amount) (hq : 0 ≤ pool.quoteToken.amount)
    (hp : 0 ≤ pool.price) :
    0 ≤ calculateLiquidityRatio pool ∧ calculateLiquidityRatio pool ≤ 1 ∧
    (calculateLiquidityRatio pool = 1 ↔
      pool.baseToken.amount * pool.price = pool.quoteToken.amount ∧
      pool.baseToken.amount * pool.price + pool.quoteToken.amount ≠ 0) := by
  have hbv : 0 ≤ pool.baseToken.amount * pool.price := mul_nonneg hb hp
  unfold calculateLiquidityRatio
  by_cases h : pool.baseToken.amount * pool.price + pool.quoteToken.amount = 0
  · simp only [h, if_true, if_pos h]
    norm_num
  · simp only [h, if_false, if_neg h]
    set bv := pool.baseToken.amount * pool.price with hbvdef
    set qv := pool.quoteToken.amount with hqvdef
    have htot : 0 < bv + qv := lt_of_le_of_ne (add_nonneg hbv hq) (Ne.symm h)
    have hmin0 : 0 ≤ min bv qv := le_min hbv hq
    have hmin2 : min bv qv * 2 ≤ bv + qv := by
      rcases le_total bv qv with h1 | h1
      · rw [min_eq_left h1]; linarith
      · rw [min_eq_right h1]; linarith
    refine ⟨?_, ?_, ?_⟩
    · positivity
    · rw [div_mul_eq_mul_div, div_le_one htot]
      exact hmin2
    · rw [div_mul_eq_mul_div, mul_comm, div_eq_one_iff_eq (ne_of_gt htot)]
      constructor
      · intro heq
        refine ⟨?_, h⟩
        rcases le_total bv qv with h1 | h1
        · rw [min_eq_left h1] at heq; linarith
        · rw [min_eq_right h1] at heq; linarith
      · rintro ⟨heq, -⟩
        rw [heq, min_self]; ring

/-- C9 witness: a balanced nonzero pool, where the amended theorem gives
    ratio bounds and the equality case. -/
theorem C9_ratio_bounds_witness :
    0 ≤ c9wpool.baseToken.amount ∧ 0 ≤ c9wpool.quoteToken.amount ∧
    0 ≤ c9wpool.price ∧ calculateLiquidityRatio c9wpool = 1 :=
  ⟨by norm_num [c9wpool], by norm_num [c9wpool], by norm_num [c9wpool],
   ((C9_ratio_bounds c9wpool (by norm_num [c9wpool]) (by norm_num [c9wpool])
       (by norm_num [c9wpool])).2.2).mpr (by norm_num [c9wpool])⟩

/-- C5: when a position satisfies the stop-loss condition and the take-profit
    condition simultaneously, evaluatePositionForExit returns shouldExit true
    with the stop-loss reason and urgency HIGH, because stop loss is checked
    first. -/
theorem C5_stop_loss_wins (config : BotConfig) (now : ℚ) (position : Position)
    (currentPool : PoolInfo)
    (hsl : position.pnlPercentage ≤ config.stopLossPercentage)
    (_htp : position.pnlPercentage ≥ config.takeProfitPercentage) :
    evaluatePositionForExit config now position currentPool =
      { shouldExit := true, reason := .stopLoss, urgency := .high } := by
  unfold evaluatePositionForExit
  rw [if_pos hsl]

/-- C5 witness: a configuration whose stop-loss threshold lies above its
    take-profit threshold, and a position satisfying both. -/
theorem C5_stop_loss_wins_witness :
    c5position.pnlPercentage ≤ c5config.stopLossPercentage ∧
    c5position.pnlPercentage ≥ c5config.takeProfitPercentage ∧
    evaluatePositionForExit c5config 0 c5position c5pool =
      { shouldExit := true, reason := .stopLoss, urgency := .high } :=
  ⟨by norm_num [c5position, c5config, DEFAULT_BOT_CONFIG],
   by norm_num [c5position, c5config, DEFAULT_BOT_CONFIG],
   C5_stop_loss_wins c5config 0 c5position c5pool
     (by norm_num [c5position, c5config, DEFAULT_BOT_CONFIG])
     (by norm_num [c5position, c5config, DEFAULT_BOT_CONFIG])⟩

/-- C10: whenever enterPosition succeeds, the allocated amount equals the
    configured position size exactly: the cash precondition makes
    min(positionSize, availableCash) select positionSize. -/
theorem C10_amount_is_position_size (config : BotConfig) (now : ℚ)
    (s : ManagerState) (pool : PoolInfo) (p : Position) (s1 : ManagerState)
    (h : enterPosition config now s pool = (some p, s1)) :
    p.amount = config.positionSize := by
  unfold enterPosition at h
  cases hc : canEnterNewPosition config s.portfolio with
  | false => rw [hc] at h; simp at h
  | true =>
    rw [hc] at h
    cases hh : hasPositionInPool s.portfolio pool.poolId with
    | true => rw [hh] at h; simp at h
    | false =>
      rw [hh] at h
      simp only [Bool.not_true, Bool.false_eq_true, if_false, Prod.mk.injEq,
        Option.some.injEq] at h
      have hcash : config.positionSize ≤ s.portfolio.availableCash := by
        unfold canEnterNewPosition at hc
        simp only [Bool.and_eq_true, decide_eq_true_eq, ge_iff_le] at hc
        exact hc.1.2
      rw [← h.1]
      exact min_eq_left hcash

/-- Concrete evaluation of enterPosition on the fresh default-config state. -/
lemma c10_enter_eq :
    enterPosition DEFAULT_BOT_CONFIG 0 (initialManagerState DEFAULT_BOT_CONFIG 10000)
        c5pool = (some c10pos, c10state) := by
  norm_num [enterPosition, canEnterNewPosition, hasPositionInPool,
    initialManagerState, c5pool, c10pos, c10state, DEFAULT_BOT_CONFIG, min_def]

/-- C10 witness: entering c5pool from the fresh default-config state
    allocates exactly the configured 1000. -/
theorem C10_amount_is_position_size_witness :
    enterPosition DEFAULT_BOT_CONFIG 0 (initialManagerState DEFAULT_BOT_CONFIG 10000)
        c5pool = (some c10pos, c10state) ∧
    c10pos.amount = DEFAULT_BOT_CONFIG.positionSize :=
  ⟨c10_enter_eq,
   C10_amount_is_position_size DEFAULT_BOT_CONFIG 0
     (initialManagerState DEFAULT_BOT_CONFIG 10000) c5pool c10pos c10state
     c10_enter_eq⟩

/-- C6: for every active position found by id, exitPosition reports success
    and appends to closedPositions a record whose final value is
    amount + apyAccrual + priceDelta, with
    apyAccrual = entryApy/100/365/24 * hoursHeld * amount and
    priceDelta = (currentPrice - entryPrice)/entryPrice * amount, and whose
    P&L fields are derived from that value. -/
theorem C6_exit_mark_to_model (now : ℚ) (s : ManagerState) (positionId : Nat)
    (currentPool : PoolInfo) (reason : String) (position : Position)
    (remaining : List Position)
    (h : removeFirstById s.portfolio.activePositions positionId =
           (some position, remaining)) :
    (exitPosition now s positionId currentPool reason).1 = true ∧
    ∃ exited,
      (exitPosition now s positionId currentPool reason).2.portfolio.closedPositions =
          s.portfolio.closedPositions ++ [exited] ∧
      exited.currentValue =
        position.amount
          + position.entryApy / 100 / 365 / 24
              * ((now - position.entryTime) / (1000 * 60 * 60)) * position.amount
          + (currentPool.price - position.entryPrice) / position.entryPrice
              * position.amount ∧
      exited.pnl = exited.currentValue - position.amount ∧
      exited.pnlPercentage = exited.pnl / position.amount * 100 := by
  unfold exitPosition
  rw [h]
  exact ⟨rfl, _, rfl, rfl, rfl, rfl⟩

/-- Concrete lookup for the exit-formula scenario. -/
lemma c6_remove_eq :
    removeFirstById c6state.portfolio.activePositions 7 = (some c6position, []) := by
  norm_num [removeFirstById, c6state, c6position]

/-- C6 witness: entry yield 20 percent, entry price 1, exit price 1.2, 24
    hours held, amount 1000: exit value 1200 + 40/73 (the 200/365 accrual
    plus the 200 price delta) and P&L percentage 20 + 4/73. -/
theorem C6_exit_mark_to_model_witness :
    removeFirstById c6state.portfolio.activePositions 7 = (some c6position, []) ∧
    (exitPosition 86400000 c6state 7 c6pool "take profit").1 = true ∧
    (exitPosition 86400000 c6state 7 c6pool "take profit").2.portfolio.closedPositions.map
        Position.currentValue = [87640 / 73] ∧
    (exitPosition 86400000 c6state 7 c6pool "take profit").2.portfolio.closedPositions.map
        Position.pnlPercentage = [1464 / 73] :=
  ⟨c6_remove_eq,
   (C6_exit_mark_to_model 86400000 c6state 7 c6pool "take profit" c6position []
      c6_remove_eq).1,
   by norm_num [exitPosition, removeFirstById, c6state, c6position, c6pool],
   by norm_num [exitPosition, removeFirstById, c6state, c6position, c6pool]⟩

/-- Rejection of enterPosition when the pool already has an active position,
    whatever the capacity checks say. -/
lemma enterPosition_rejected_of_hasPos (config : BotConfig) (now : ℚ)
    (s : ManagerState) (pool : PoolInfo)
    (h : hasPositionInPool s.portfolio pool.poolId = true) :
    enterPosition config now s pool = (none, s) := by
  cases hc : canEnterNewPosition config s.portfolio
  · simp [enterPosition, hc]
  · simp [enterPosition, hc, h]

/-- C7: violating any enterPosition precondition yields null and leaves the
    state unchanged, and a successful entry makes an immediate second call
    for the same pool fail while the pool holds exactly one more active
    position than before. -/
theorem C7_enter_rejection (config : BotConfig) :
    (∀ (now : ℚ) (s : ManagerState) (pool : PoolInfo),
        canEnterNewPosition config s.portfolio = false ∨
          hasPositionInPool s.portfolio pool.poolId = true →
        enterPosition config now s pool = (none, s)) ∧
    (∀ (now now2 : ℚ) (s s1 : ManagerState) (pool : PoolInfo) (p : Position),
        enterPosition config now s pool = (some p, s1) →
        enterPosition config now2 s1 pool = (none, s1) ∧
        (s1.portfolio.activePositions.filter (fun q => q.poolId == pool.poolId)).length =
          (s.portfolio.activePositions.filter (fun q => q.poolId == pool.poolId)).length
            + 1) := by
  constructor
  · rintro now s pool (h | h)
    · simp [enterPosition, h]
    · exact enterPosition_rejected_of_hasPos config now s pool h
  · intro now now2 s s1 pool p h
    unfold enterPosition at h
    cases hc : canEnterNewPosition config s.portfolio with
    | false => rw [hc] at h; simp at h
    | true =>
      rw [hc] at h
      cases hh : hasPositionInPool s.portfolio pool.poolId with
      | true => rw [hh] at h; simp at h
      | false =>
        rw [hh] at h
        simp only [Bool.not_true, Bool.false_eq_true, if_false, Prod.mk.injEq,
          Option.some.injEq] at h
        obtain ⟨-, hs⟩ := h
        subst hs
        refine ⟨enterPosition_rejected_of_hasPos config now2 _ pool ?_, ?_⟩
        · simp [hasPositionInPool, List.any_append]
        · simp [List.filter_append]

/-- The c6state already holds an active position targeting pool6. -/
lemma c7_haspos : hasPositionInPool c6state.portfolio c7pool.poolId = true := by
  norm_num [hasPositionInPool, c6state, c6position, c7pool]

/-- C7 witness: entering c7pool from a state that already has an active
    position in that pool is rejected without mutation. -/
theorem C7_enter_rejection_witness :
    (canEnterNewPosition DEFAULT_BOT_CONFIG c6state.portfolio = false ∨
     hasPositionInPool c6state.portfolio c7pool.poolId = true) ∧
    enterPosition DEFAULT_BOT_CONFIG 0 c6state c7pool = (none, c6state) :=
  ⟨Or.inr c7_haspos,
   (C7_enter_rejection DEFAULT_BOT_CONFIG).1 0 c6state c7pool (Or.inr c7_haspos)⟩

/-- C1: a pool failing a hard gate of the decision-phase evaluator (yield,
    TVL and volume checked in that order) gets decision SKIP, score 0 and
    exactly one reason, and the gates after the failing one are never
    evaluated: the result does not depend on the fields they would read. -/
theorem C1_hard_gates_short_circuit (now : ℚ) (pool : PoolInfo)
    (h : pool.apy < POOL_EVALUATION_TS.MIN_APY ∨
         (POOL_EVALUATION_TS.MIN_APY ≤ pool.apy ∧
          pool.tvl < POOL_EVALUATION_TS.MIN_TVL) ∨
         (POOL_EVALUATION_TS.MIN_APY ≤ pool.apy ∧
          POOL_EVALUATION_TS.MIN_TVL ≤ pool.tvl ∧
          pool.volume24h < POOL_EVALUATION_TS.MIN_VOLUME_24H)) :
    (evaluatePoolForEntryTS now pool).decision = .SKIP ∧
    (evaluatePoolForEntryTS now pool).score = 0 ∧
    (evaluatePoolForEntryTS now pool).reasons.length = 1 ∧
    (pool.apy < POOL_EVALUATION_TS.MIN_APY →
      ∀ t v, evaluatePoolForEntryTS now { pool with tvl := t, volume24h := v } =
               evaluatePoolForEntryTS now pool) ∧
    (POOL_EVALUATION_TS.MIN_APY ≤ pool.apy →
      pool.tvl < POOL_EVALUATION_TS.MIN_TVL →
      ∀ v, evaluatePoolForEntryTS now { pool with volume24h := v } =
             evaluatePoolForEntryTS now pool) := by
  rcases h with h1 | ⟨h1, h2⟩ | ⟨h1, h2, h3⟩
  · have hn : ¬ pool.apy ≥ POOL_EVALUATION_TS.MIN_APY := not_le.mpr h1
    refine ⟨?_, ?_, ?_, ?_, ?_⟩
    · simp [evaluatePoolForEntryTS, hn]
    · simp [evaluatePoolForEntryTS, hn]
    · simp [evaluatePoolForEntryTS, hn]
    · intro _ t v
      simp [evaluatePoolForEntryTS, hn]
    · intro hc _
      exact absurd hc hn
  · have hn : ¬ pool.tvl ≥ POOL_EVALUATION_TS.MIN_TVL := not_le.mpr h2
    refine ⟨?_, ?_, ?_, ?_, ?_⟩
    · simp [evaluatePoolForEntryTS, h1, hn]
    · simp [evaluatePoolForEntryTS, h1, hn]
    · simp [evaluatePoolForEntryTS, h1, hn]
    · intro hc
      exact absurd h1 (not_le.mpr hc)
    · intro _ _ v
      simp [evaluatePoolForEntryTS, h1, hn]
  · have hn : ¬ pool.volume24h ≥ POOL_EVALUATION_TS.MIN_VOLUME_24H := not_le.mpr h3
    refine ⟨?_, ?_, ?_, ?_, ?_⟩
    · simp [evaluatePoolForEntryTS, h1, h2, hn]
    · simp [evaluatePoolForEntryTS, h1, h2, hn]
    · simp [evaluatePoolForEntryTS, h1, h2, hn]
    · intro hc
      exact absurd h1 (not_le.mpr hc)
    · intro _ hc
      exact absurd h2 (not_le.mpr hc)

/-- C1 witness: a pool with yield 50 percent against the 100 percent gate is
    skipped with score 0 and a single reason. -/
theorem C1_hard_gates_short_circuit_witness :
    c1pool.apy < POOL_EVALUATION_TS.MIN_APY ∧
    (evaluatePoolForEntryTS 7200000 c1pool).decision = .SKIP ∧
    (evaluatePoolForEntryTS 7200000 c1pool).score = 0 ∧
    (evaluatePoolForEntryTS 7200000 c1pool).reasons.length = 1 :=
  ⟨by norm_num [c1pool, POOL_EVALUATION_TS],
   (C1_hard_gates_short_circuit 7200000 c1pool
      (Or.inl (by norm_num [c1pool, POOL_EVALUATION_TS]))).1,
   (C1_hard_gates_short_circuit 7200000 c1pool
      (Or.inl (by norm_num [c1pool, POOL_EVALUATION_TS]))).2.1,
   (C1_hard_gates_short_circuit 7200000 c1pool
      (Or.inl (by norm_num [c1pool, POOL_EVALUATION_TS]))).2.2.1⟩

/-- C2 counterexample: with the default configuration and all three gates
    passing, raising only the yield from 99 to 101 (crossing the 100 percent
    red-flag ceiling) drops the score from 100 to 80, and raising only the
    volume from 1000 to 1001 (tripping the low-TVL-to-volume red flag) drops
    the score from 90 to 80, so the score is not monotone in yield or in
    volume. -/
theorem C2_counterexample_not_monotone :
    (c2poolApyHi = { c2poolApyLo with apy := 101 } ∧
     c2poolApyLo.apy < c2poolApyHi.apy ∧
     c2poolApyLo.apy ≥ DEFAULT_BOT_CONFIG.minApy ∧
     c2poolApyLo.tvl ≥ DEFAULT_BOT_CONFIG.minTvl ∧
     c2poolApyLo.volume24h ≥ DEFAULT_BOT_CONFIG.minVolume24h ∧
     (evaluatePoolForEntryJS DEFAULT_BOT_CONFIG 7200000 c2poolApyLo).score = 100 ∧
     (evaluatePoolForEntryJS DEFAULT_BOT_CONFIG 7200000 c2poolApyHi).score = 80) ∧
    (c2poolVolHi = { c2poolVolLo with volume24h := 1001 } ∧
     c2poolVolLo.volume24h < c2poolVolHi.volume24h ∧
     c2poolVolLo.apy ≥ DEFAULT_BOT_CONFIG.minApy ∧
     c2poolVolLo.tvl ≥ DEFAULT_BOT_CONFIG.minTvl ∧
     c2poolVolLo.volume24h ≥ DEFAULT_BOT_CONFIG.minVolume24h ∧
     (evaluatePoolForEntryJS DEFAULT_BOT_CONFIG 7200000 c2poolVolLo).score = 90 ∧
     (evaluatePoolForEntryJS DEFAULT_BOT_CONFIG 7200000 c2poolVolHi).score = 80) := by
  refine ⟨⟨rfl, ?_, ?_, ?_, ?_, ?_, ?_⟩, ⟨rfl, ?_, ?_, ?_, ?_, ?_, ?_⟩⟩ <;>
    norm_num [evaluatePoolForEntryJS, getPoolAgeHours, calculateLiquidityRatio,
      POOL_EVALUATION, DEFAULT_BOT_CONFIG, c2poolApyLo, c2poolApyHi,
      c2poolVolLo, c2poolVolHi, min_def]

/-- Closed form of the gate-passing score of the first evaluator variant. -/
lemma evaluatePoolForEntryJS_score (config : BotConfig) (now : ℚ) (pool : PoolInfo)
    (h1 : pool.apy ≥ config.minApy) (h2 : pool.tvl ≥ config.minTvl)
    (h3 : pool.volume24h ≥ config.minVolume24h) :
    (evaluatePoolForEntryJS config now pool).score =
      65 + (if getPoolAgeHours now pool ≥ POOL_EVALUATION.MIN_AGE_HOURS ∧
               getPoolAgeHours now pool ≤ POOL_EVALUATION.MAX_AGE_HOURS
            then 15 else 5)
         + (if calculateLiquidityRatio pool ≥ POOL_EVALUATION.minLiquidityRatio
            then 10 else 3)
         + (if pool.apy > config.minApy * 2 then 10 else 0)
         + (if pool.volume24h > config.minVolume24h * 5 then 5 else 0)
         - (if pool.apy > 100 then 20 else 0)
         - (if pool.tvl < pool.volume24h * (1 / 10) then 10 else 0) := by
  unfold evaluatePoolForEntryJS
  rw [if_pos h1, if_pos h2, if_pos h3]
  dsimp only
  split_ifs <;> norm_num

/-- C2 amended: with all three gates passing, the score is monotone
    non-decreasing in TVL (raising TVL can only clear the low-TVL red flag),
    holding every other attribute and the configuration fixed. -/
theorem C2_score_monotone_in_tvl (config : BotConfig) (now : ℚ) (pool : PoolInfo)
    (tvl2 : ℚ) (hapy : pool.apy ≥ config.minApy) (htvl : pool.tvl ≥ config.minTvl)
    (hvol : pool.volume24h ≥ config.minVolume24h) (h2 : pool.tvl ≤ tvl2) :
    (evaluatePoolForEntryJS config now pool).score ≤
      (evaluatePoolForEntryJS config now { pool with tvl := tvl2 }).score := by
  have hage : getPoolAgeHours now { pool with tvl := tvl2 } = getPoolAgeHours now pool := rfl
  have hliq : calculateLiquidityRatio { pool with tvl := tvl2 } =
      calculateLiquidityRatio pool := rfl
  rw [evaluatePoolForEntryJS_score config now pool hapy htvl hvol,
      evaluatePoolForEntryJS_score config now { pool with tvl := tvl2 } hapy
        (le_trans htvl h2) hvol,
      hage, hliq]
  dsimp only
  split_ifs <;> first
    | omega
    | (exfalso; linarith)

/-- C2 witness: the monotonicity instance from TVL 100 to TVL 200 on a
    gate-passing pool. -/
theorem C2_score_monotone_in_tvl_witness :
    c2poolVolLo.apy ≥ DEFAULT_BOT_CONFIG.minApy ∧
    c2poolVolLo.tvl ≥ DEFAULT_BOT_CONFIG.minTvl ∧
    c2poolVolLo.volume24h ≥ DEFAULT_BOT_CONFIG.minVolume24h ∧
    c2poolVolLo.tvl ≤ 200 ∧
    (evaluatePoolForEntryJS DEFAULT_BOT_CONFIG 7200000 c2poolVolLo).score ≤
      (evaluatePoolForEntryJS DEFAULT_BOT_CONFIG 7200000
          { c2poolVolLo with tvl := 200 }).score :=
  ⟨by norm_num [c2poolVolLo, DEFAULT_BOT_CONFIG],
   by norm_num [c2poolVolLo, DEFAULT_BOT_CONFIG],
   by norm_num [c2poolVolLo, DEFAULT_BOT_CONFIG],
   by norm_num [c2poolVolLo],
   C2_score_monotone_in_tvl DEFAULT_BOT_CONFIG 7200000 c2poolVolLo 200
     (by norm_num [c2poolVolLo, DEFAULT_BOT_CONFIG])
     (by norm_num [c2poolVolLo, DEFAULT_BOT_CONFIG])
     (by norm_num [c2poolVolLo, DEFAULT_BOT_CONFIG])
     (by norm_num [c2poolVolLo])⟩

/-- The pair just set is in the map. -/
lemma mem_mapSet_self (m : List (String × PoolInfo)) (k : String) (v : PoolInfo) :
    (k, v) ∈ mapSet m k v := by
  induction m with
  | nil => simp [mapSet]
  | cons kv m ih =>
    by_cases h : kv.1 = k
    · simp [mapSet, h]
    · simp [mapSet, h, ih]

/-- Entries with a different key survive mapSet. -/
lemma mem_mapSet_of_ne (m : List (String × PoolInfo)) (k : String) (v : PoolInfo)
    (kv : String × PoolInfo) (hm : kv ∈ m) (hne : kv.1 ≠ k) : kv ∈ mapSet m k v := by
  induction m with
  | nil => cases hm
  | cons kv' m ih =>
    by_cases h : kv'.1 = k
    · rcases List.mem_cons.mp hm with h1 | h1
      · subst h1; exact absurd h hne
      · simp only [mapSet, if_pos h]
        exact List.mem_cons_of_mem _ h1
    · rcases List.mem_cons.mp hm with h1 | h1
      · subst h1; simp [mapSet, h]
      · simp only [mapSet, if_neg h]
        exact List.mem_cons_of_mem _ (ih h1)

/-- Every entry of mapSet is an old entry or the pair just set. -/
lemma mapSet_mem_inv (m : List (String × PoolInfo)) (k : String) (v : PoolInfo)
    (kv : String × PoolInfo) (h : kv ∈ mapSet m k v) : kv ∈ m ∨ kv = (k, v) := by
  induction m with
  | nil => simp [mapSet] at h; right; exact h
  | cons kv' m ih =>
    by_cases hh : kv'.1 = k
    · simp only [mapSet, if_pos hh] at h
      rcases List.mem_cons.mp h with h1 | h1
      · right; exact h1
      · left; exact List.mem_cons_of_mem _ h1
    · simp only [mapSet, if_neg hh] at h
      rcases List.mem_cons.mp h with h1 | h1
      · left; subst h1; exact List.mem_cons_self _ _
      · rcases ih h1 with h2 | h2
        · left; exact List.mem_cons_of_mem _ h2
        · right; exact h2

/-- A successful lookup exhibits a map entry. -/
lemma mapGet_some_mem (m : List (String × PoolInfo)) (k : String) (q : PoolInfo)
    (h : mapGet m k = some q) : (k, q) ∈ m := by
  induction m with
  | nil => simp [mapGet] at h
  | cons kv m ih =>
    by_cases hh : kv.1 = k
    · simp only [mapGet, if_pos hh, Option.some.injEq] at h
      have : kv = (k, q) := by
        cases kv
        simp_all
      rw [← this]
      exact List.mem_cons_self _ _
    · simp only [mapGet, if_neg hh] at h
      exact List.mem_cons_of_mem _ (ih h)

/-- A failed lookup means no entry carries the key. -/
lemma mapGet_none_not_mem (m : List (String × PoolInfo)) (k : String)
    (h : mapGet m k = none) : ∀ kv ∈ m, kv.1 ≠ k := by
  induction m with
  | nil => intro kv hkv; cases hkv
  | cons kv' m ih =>
    intro kv hkv
    by_cases hh : kv'.1 = k
    · simp [mapGet, hh] at h
    · simp only [mapGet, if_neg hh] at h
      rcases List.mem_cons.mp hkv with h1 | h1
      · subst h1; exact hh
      · exact ih h kv h1

/-- Keys of mapSet come from the old keys or are the key just set. -/
lemma keys_mapSet_subset (m : List (String × PoolInfo)) (k : String) (v : PoolInfo)
    (x : String) (h : x ∈ (mapSet m k v).map Prod.fst) :
    x ∈ m.map Prod.fst ∨ x = k := by
  obtain ⟨kv, hkv, rfl⟩ := List.mem_map.mp h
  rcases mapSet_mem_inv m k v kv hkv with h1 | h1
  · left; exact List.mem_map.mpr ⟨kv, h1, rfl⟩
  · right; rw [h1]

/-- mapSet preserves distinctness of keys. -/
lemma keys_nodup_mapSet (m : List (String × PoolInfo)) (k : String) (v : PoolInfo)
    (h : (m.map Prod.fst).Nodup) : ((mapSet m k v).map Prod.fst).Nodup := by
  induction m with
  | nil => simp [mapSet]
  | cons kv m ih =>
    simp only [List.map_cons, List.nodup_cons] at h
    by_cases hh : kv.1 = k
    · simp only [mapSet, if_pos hh, List.map_cons, List.nodup_cons]
      exact ⟨by rw [← hh]; exact h.1, h.2⟩
    · simp only [mapSet, if_neg hh, List.map_cons, List.nodup_cons]
      refine ⟨?_, ih h.2⟩
      intro hcon
      rcases keys_mapSet_subset m k v kv.1 hcon with h1 | h1
      · exact h.1 h1
      · exact hh h1

/-- With distinct keys, two entries sharing a key coincide. -/
lemma eq_of_same_key_nodup (m : List (String × PoolInfo))
    (h : (m.map Prod.fst).Nodup) (kv kv' : String × PoolInfo)
    (h1 : kv ∈ m) (h2 : kv' ∈ m) (hk : kv.1 = kv'.1) : kv = kv' := by
  induction m with
  | nil => cases h1
  | cons a m ih =>
    simp only [List.map_cons, List.nodup_cons] at h
    rcases List.mem_cons.mp h1 with e1 | e1 <;> rcases List.mem_cons.mp h2 with e2 | e2
    · rw [e1, e2]
    · subst e1
      exact absurd (List.mem_map.mpr ⟨kv', e2, hk.symm⟩) h.1
    · subst e2
      exact absurd (List.mem_map.mpr ⟨kv, e1, hk⟩) h.1
    · exact ih h.2 e1 e2

/-- mapSet preserves key-consistency of bindings. -/
lemma mapGood_mapSet (m : List (String × PoolInfo)) (k : String) (v : PoolInfo)
    (hg : mapGood m) (hv : v.poolId = k) : mapGood (mapSet m k v) := by
  intro kv hkv
  rcases mapSet_mem_inv m k v kv hkv with h | h
  · exact hg kv h
  · subst h; exact hv

/-- One dedup step preserves key-consistency. -/
lemma dedupStep_good (m : List (String × PoolInfo)) (pool : PoolInfo)
    (hg : mapGood m) : mapGood (dedupStep m pool) := by
  unfold dedupStep
  cases hq : mapGet m pool.poolId with
  | none => exact mapGood_mapSet m _ pool hg rfl
  | some q =>
    dsimp only
    by_cases hlt : q.createdAt < pool.createdAt
    · rw [if_pos hlt]; exact mapGood_mapSet m _ pool hg rfl
    · rw [if_neg hlt]; exact hg

/-- One dedup step preserves distinct keys. -/
lemma dedupStep_keys_nodup (m : List (String × PoolInfo)) (pool : PoolInfo)
    (h : (m.map Prod.fst).Nodup) : ((dedupStep m pool).map Prod.fst).Nodup := by
  unfold dedupStep
  cases hq : mapGet m pool.poolId with
  | none => exact keys_nodup_mapSet m _ pool h
  | some q =>
    dsimp only
    by_cases hlt : q.createdAt < pool.createdAt
    · rw [if_pos hlt]; exact keys_nodup_mapSet m _ pool h
    · rw [if_neg hlt]; exact h

/-- One dedup step never lowers the coverage of a record. -/
lemma coveredBy_dedupStep (m : List (String × PoolInfo)) (pool p : PoolInfo)
    (hn : (m.map Prod.fst).Nodup) (h : coveredBy m p) :
    coveredBy (dedupStep m pool) p := by
  obtain ⟨kv, hkv, hkey, hle⟩ := h
  unfold dedupStep
  cases hq : mapGet m pool.poolId with
  | none =>
    exact ⟨kv, mem_mapSet_of_ne m _ pool kv hkv (mapGet_none_not_mem m _ hq kv hkv),
      hkey, hle⟩
  | some q =>
    dsimp only
    by_cases hlt : q.createdAt < pool.createdAt
    · rw [if_pos hlt]
      by_cases hk : kv.1 = pool.poolId
      · have hkq : kv = (pool.poolId, q) :=
          eq_of_same_key_nodup m hn kv (pool.poolId, q) hkv
            (mapGet_some_mem m _ q hq) hk
        refine ⟨(pool.poolId, pool), mem_mapSet_self m _ pool, ?_, ?_⟩
        · rw [← hk, hkey]
        · have : kv.2.createdAt = q.createdAt := by rw [hkq]
          calc p.createdAt ≤ kv.2.createdAt := hle
            _ = q.createdAt := this
            _ ≤ pool.createdAt := le_of_lt hlt
      · exact ⟨kv, mem_mapSet_of_ne m _ pool kv hkv hk, hkey, hle⟩
    · rw [if_neg hlt]
      exact ⟨kv, hkv, hkey, hle⟩

/-- After its own dedup step, a record is covered. -/
lemma dedupStep_covers_self (m : List (String × PoolInfo)) (pool : PoolInfo) :
    coveredBy (dedupStep m pool) pool := by
  unfold dedupStep
  cases hq : mapGet m pool.poolId with
  | none => exact ⟨(pool.poolId, pool), mem_mapSet_self m _ pool, rfl, le_refl _⟩
  | some q =>
    dsimp only
    by_cases hlt : q.createdAt < pool.createdAt
    · rw [if_pos hlt]
      exact ⟨(pool.poolId, pool), mem_mapSet_self m _ pool, rfl, le_refl _⟩
    · rw [if_neg hlt]
      exact ⟨(pool.poolId, q), mapGet_some_mem m _ q hq, rfl, not_lt.mp hlt⟩

/-- Each entry after a dedup step is an old entry or binds the new record. -/
lemma dedupStep_mem_inv (m : List (String × PoolInfo)) (pool : PoolInfo)
    (kv : String × PoolInfo) (h : kv ∈ dedupStep m pool) : kv ∈ m ∨ kv.2 = pool := by
  unfold dedupStep at h
  cases hq : mapGet m pool.poolId with
  | none =>
    rw [hq] at h
    rcases mapSet_mem_inv m _ pool kv h with h1 | h1
    · left; exact h1
    · right; rw [h1]
  | some q =>
    rw [hq] at h
    dsimp only at h
    by_cases hlt : q.createdAt < pool.createdAt
    · rw [if_pos hlt] at h
      rcases mapSet_mem_inv m _ pool kv h with h1 | h1
      · left; exact h1
      · right; rw [h1]
    · rw [if_neg hlt] at h
      left; exact h

/-- Invariants of the deduplicatePools fold: key-consistency, distinct keys,
    coverage monotonicity, coverage of every processed record, and
    provenance of every entry. -/
lemma dedup_foldl_spec (xs : List PoolInfo) :
    ∀ m, mapGood m → (m.map Prod.fst).Nodup →
      mapGood (xs.foldl dedupStep m) ∧
      ((xs.foldl dedupStep m).map Prod.fst).Nodup ∧
      (∀ p, coveredBy m p → coveredBy (xs.foldl dedupStep m) p) ∧
      (∀ p ∈ xs, coveredBy (xs.foldl dedupStep m) p) ∧
      (∀ kv ∈ xs.foldl dedupStep m, kv ∈ m ∨ kv.2 ∈ xs) := by
  induction xs with
  | nil =>
    intro m hg hn
    exact ⟨hg, hn, fun p h => h, by simp, fun kv h => Or.inl h⟩
  | cons x xs ih =>
    intro m hg hn
    simp only [List.foldl_cons]
    obtain ⟨g1, n1, c1, c2, c3⟩ :=
      ih (dedupStep m x) (dedupStep_good m x hg) (dedupStep_keys_nodup m x hn)
    refine ⟨g1, n1, ?_, ?_, ?_⟩
    · intro p hp
      exact c1 p (coveredBy_dedupStep m x p hn hp)
    · intro p hp
      rcases List.mem_cons.mp hp with h | h
      · subst h; exact c1 p (dedupStep_covers_self m p)
      · exact c2 p h
    · intro kv hkv
      rcases c3 kv hkv with h | h
      · rcases dedupStep_mem_inv m x kv h with h1 | h1
        · exact Or.inl h1
        · exact Or.inr (by rw [h1]; exact List.mem_cons_self _ _)
      · exact Or.inr (List.mem_cons_of_mem _ h)

/-- Invariants of the removeDuplicatePools filter: the output is a sublist
    with keys outside the seen set and pairwise-distinct keys, and the first
    occurrence of each unseen key is kept. -/
lemma removeDuplicatePoolsAux_spec (xs : List PoolInfo) :
    ∀ seen,
      (removeDuplicatePoolsAux seen xs).Sublist xs ∧
      (∀ q ∈ removeDuplicatePoolsAux seen xs, mintPairKey q ∉ seen) ∧
      ((removeDuplicatePoolsAux seen xs).map mintPairKey).Nodup ∧
      (∀ l1 p l2, xs = l1 ++ p :: l2 → mintPairKey p ∉ seen →
        (∀ x ∈ l1, mintPairKey x ≠ mintPairKey p) →
        p ∈ removeDuplicatePoolsAux seen xs) := by
  induction xs with
  | nil =>
    intro seen
    refine ⟨by simp [removeDuplicatePoolsAux], by simp [removeDuplicatePoolsAux],
      by simp [removeDuplicatePoolsAux], ?_⟩
    intro l1 p l2 heq
    cases l1 <;> simp at heq
  | cons x xs ih =>
    intro seen
    by_cases hx : mintPairKey x ∈ seen
    · simp only [removeDuplicatePoolsAux, if_pos hx]
      obtain ⟨s1, s2, s3, s4⟩ := ih seen
      refine ⟨s1.cons x, s2, s3, ?_⟩
      intro l1 p l2 heq hp hl1
      cases l1 with
      | nil =>
        simp only [List.nil_append, List.cons.injEq] at heq
        exact absurd (heq.1 ▸ hx) hp
      | cons y l1' =>
        simp only [List.cons_append, List.cons.injEq] at heq
        exact s4 l1' p l2 heq.2 hp
          (fun z hz => hl1 z (List.mem_cons_of_mem _ hz))
    · simp only [removeDuplicatePoolsAux, if_neg hx]
      obtain ⟨s1, s2, s3, s4⟩ := ih (mintPairKey x :: seen)
      refine ⟨s1.cons₂ x, ?_, ?_, ?_⟩
      · intro q hq
        rcases List.mem_cons.mp hq with h | h
        · subst h; exact hx
        · intro hcon
          exact s2 q h (List.mem_cons_of_mem _ hcon)
      · simp only [List.map_cons, List.nodup_cons]
        refine ⟨?_, s3⟩
        intro hcon
        obtain ⟨q, hq, hkey⟩ := List.mem_map.mp hcon
        exact s2 q hq (by rw [hkey]; exact List.mem_cons_self _ _)
      · intro l1 p l2 heq hp hl1
        cases l1 with
        | nil =>
          simp only [List.nil_append, List.cons.injEq] at heq
          rw [heq.1]
          exact List.mem_cons_self _ _
        | cons y l1' =>
          simp only [List.cons_append, List.cons.injEq] at heq
          refine List.mem_cons_of_mem _ (s4 l1' p l2 heq.2 ?_ ?_)
          · intro hcon
            rcases List.mem_cons.mp hcon with h | h
            · exact hl1 y (List.mem_cons_self _ _) (heq.1 ▸ h.symm)
            · exact hp h
          · intro z hz
            exact hl1 z (List.mem_cons_of_mem _ hz)

/-- C3 counterexample: for two candidates sharing the (baseMint, quoteMint)
    pair with distinct pool ids, the bot's deduplicatePools keeps both (it
    keys by poolId, not by the mint pair), and PoolMonitor's
    removeDuplicatePools keeps the FIRST-seen record, not the most recently
    created one. -/
theorem C3_counterexample_dedup_key :
    mintPairKey c3r1 = mintPairKey c3r2 ∧
    c3r1.createdAt < c3r2.createdAt ∧
    c3r1.poolId ≠ c3r2.poolId ∧
    removeDuplicatePools [c3r1, c3r2] = [c3r1] ∧
    deduplicatePools [c3r1, c3r2] = [c3r1, c3r2] := by
  refine ⟨rfl, by norm_num [c3r1, c3r2], by simp [c3r1, c3r2], ?_, ?_⟩
  · simp [removeDuplicatePools, removeDuplicatePoolsAux, mintPairKey, c3r1, c3r2]
  · simp [deduplicatePools, dedupStep, mapGet, mapSet, c3r1, c3r2]

/-- C3 amended: the bot's discovery-cycle deduplicatePools deduplicates by
    poolId, keeping for each id a record whose creation time is at least that
    of every candidate with that id (strictly newer records replace older
    ones); the PoolMonitor variant deduplicates by the (baseMint, quoteMint)
    key but keeps the first-seen record on conflict. -/
theorem C3_dedup_by_poolId_keeping_newest (pools : List PoolInfo) :
    (((deduplicatePools pools).map PoolInfo.poolId).Nodup ∧
     (∀ q ∈ deduplicatePools pools, q ∈ pools) ∧
     (∀ p ∈ pools, ∃ q ∈ deduplicatePools pools,
        q.poolId = p.poolId ∧ p.createdAt ≤ q.createdAt)) ∧
    ((removeDuplicatePools pools).Sublist pools ∧
     ((removeDuplicatePools pools).map mintPairKey).Nodup ∧
     (∀ l1 p l2, pools = l1 ++ p :: l2 →
        (∀ x ∈ l1, mintPairKey x ≠ mintPairKey p) →
        p ∈ removeDuplicatePools pools)) := by
  constructor
  · obtain ⟨hg, hn, -, hcov, hsub⟩ :=
      dedup_foldl_spec pools [] (fun kv hkv => absurd hkv (List.not_mem_nil kv))
        (by simp)
    refine ⟨?_, ?_, ?_⟩
    · unfold deduplicatePools
      rw [List.map_map]
      have he : (pools.foldl dedupStep []).map (PoolInfo.poolId ∘ Prod.snd) =
          (pools.foldl dedupStep []).map Prod.fst :=
        List.map_congr_left (fun kv hkv => hg kv hkv)
      rw [he]
      exact hn
    · intro q hq
      obtain ⟨kv, hkv, rfl⟩ := List.mem_map.mp hq
      rcases hsub kv hkv with h | h
      · exact absurd h (List.not_mem_nil kv)
      · exact h
    · intro p hp
      obtain ⟨kv, hkv, hk, hle⟩ := hcov p hp
      exact ⟨kv.2, List.mem_map.mpr ⟨kv, hkv, rfl⟩, by rw [hg kv hkv, hk], hle⟩
  · obtain ⟨s1, -, s3, s4⟩ := removeDuplicatePoolsAux_spec pools []
    exact ⟨s1, s3, fun l1 p l2 heq hl1 => s4 l1 p l2 heq (List.not_mem_nil _) hl1⟩

/-- C3 witness: the amended statement applied to the concrete two-record
    conflict list. -/
theorem C3_dedup_witness :
    ((deduplicatePools [c3r1, c3r2]).map PoolInfo.poolId).Nodup ∧
    (∃ q ∈ deduplicatePools [c3r1, c3r2],
        q.poolId = c3r1.poolId ∧ c3r1.createdAt ≤ q.createdAt) ∧
    (removeDuplicatePools [c3r1, c3r2]).Sublist [c3r1, c3r2] ∧
    c3r1 ∈ removeDuplicatePools [c3r1, c3r2] :=
  ⟨(C3_dedup_by_poolId_keeping_newest [c3r1, c3r2]).1.1,
   (C3_dedup_by_poolId_keeping_newest [c3r1, c3r2]).1.2.2 c3r1 (by simp),
   (C3_dedup_by_poolId_keeping_newest [c3r1, c3r2]).2.1,
   (C3_dedup_by_poolId_keeping_newest [c3r1, c3r2]).2.2.2 [] c3r1 [c3r2] rfl
     (fun x hx => absurd hx (List.not_mem_nil x))⟩

/-- Shape facts about findIndex-plus-splice: the remainder is no longer than
    the input, a found position was in the input, and the remainder is a
    subset of the input. -/
lemma removeFirstById_spec (l : List Position) (i : Nat) :
    (removeFirstById l i).2.length ≤ l.length ∧
    (∀ p, (removeFirstById l i).1 = some p → p ∈ l) ∧
    (∀ q ∈ (removeFirstById l i).2, q ∈ l) := by
  induction l with
  | nil => simp [removeFirstById]
  | cons x l ih =>
    obtain ⟨ih1, ih2, ih3⟩ := ih
    by_cases h : x.id = i
    · simp only [removeFirstById, if_pos h]
      refine ⟨by simp, ?_, ?_⟩
      · intro p hp
        simp only [Option.some.injEq] at hp
        subst hp
        exact List.mem_cons_self _ _
      · intro q hq
        exact List.mem_cons_of_mem _ hq
    · simp only [removeFirstById, if_neg h]
      refine ⟨?_, ?_, ?_⟩
      · simpa using Nat.succ_le_succ ih1
      · intro p hp
        exact List.mem_cons_of_mem _ (ih2 p hp)
      · intro q hq
        rcases List.mem_cons.mp hq with h1 | h1
        · subst h1; exact List.mem_cons_self _ _
        · exact List.mem_cons_of_mem _ (ih3 q h1)

/-- Inductive invariant of every reachable manager state: position count
    bounded by maxPositions, total invested strictly below
    maxTotalInvestment + positionSize, and non-negative active amounts. -/
lemma portfolio_invariant (config : BotConfig) (initialCash : ℚ)
    (hpos : 0 ≤ config.positionSize) (hmax : 0 < config.maxTotalInvestment) :
    ∀ s, Reachable config initialCash s →
      s.portfolio.activePositions.length ≤ config.maxPositions ∧
      s.portfolio.totalInvested < config.maxTotalInvestment + config.positionSize ∧
      (∀ p ∈ s.portfolio.activePositions, 0 ≤ p.amount) := by
  intro s hs
  induction hs with
  | init =>
    refine ⟨by simp [initialManagerState], ?_, by simp [initialManagerState]⟩
    simp only [initialManagerState]
    linarith
  | enter s now pool hs ih =>
    obtain ⟨ih1, ih2, ih3⟩ := ih
    cases hc : canEnterNewPosition config s.portfolio with
    | false =>
      simp only [enterPosition, hc, Bool.not_false, if_true]
      exact ⟨ih1, ih2, ih3⟩
    | true =>
      cases hh : hasPositionInPool s.portfolio pool.poolId with
      | true =>
        simp only [enterPosition, hc, hh, Bool.not_true, Bool.false_eq_true,
          if_false, if_true]
        exact ⟨ih1, ih2, ih3⟩
      | false =>
        have hc' := hc
        unfold canEnterNewPosition at hc'
        simp only [Bool.and_eq_true, decide_eq_true_eq, ge_iff_le] at hc'
        obtain ⟨⟨hlen, hcash⟩, hinv⟩ := hc'
        have hmin : min config.positionSize s.portfolio.availableCash =
            config.positionSize := min_eq_left hcash
        simp only [enterPosition, hc, hh, Bool.not_true, Bool.false_eq_true,
          if_false]
        refine ⟨?_, ?_, ?_⟩
        · simp only [List.length_append, List.length_cons, List.length_nil]
          omega
        · simp only [hmin]
          linarith
        · intro p hp
          rcases List.mem_append.mp hp with h1 | h1
          · exact ih3 p h1
          · simp only [List.mem_singleton] at h1
            subst h1
            simp only [hmin]
            exact hpos
  | exit s now positionId currentPool reason hs ih =>
    obtain ⟨ih1, ih2, ih3⟩ := ih
    obtain ⟨hlen, hmem, hsub⟩ :=
      removeFirstById_spec s.portfolio.activePositions positionId
    unfold exitPosition
    cases hr : removeFirstById s.portfolio.activePositions positionId with
    | mk fst snd =>
      rw [hr] at hlen hmem hsub
      cases fst with
      | none =>
        dsimp only
        exact ⟨ih1, ih2, ih3⟩
      | some position =>
        dsimp only at hlen hmem hsub ⊢
        have hpamt : 0 ≤ position.amount := ih3 position (hmem position rfl)
        refine ⟨le_trans hlen ih1, by linarith, ?_⟩
        intro p hp
        exact ih3 p (hsub p hp)
  | update s now positionId currentPool hs ih =>
    obtain ⟨ih1, ih2, ih3⟩ := ih
    unfold updatePosition
    refine ⟨by simpa using ih1, ih2, ?_⟩
    intro p hp
    simp only [List.mem_map] at hp
    obtain ⟨q, hq, rfl⟩ := hp
    by_cases h : q.id = positionId
    · simp only [if_pos h]
      simpa [updatePositionRecord] using ih3 q hq
    · simp only [if_neg h]
      exact ih3 q hq

/-- C4 counterexample: with position size 3000, investment cap 10000 and
    starting cash 10000, three entries, one profitable exit and two more
    entries drive totalInvested to 12000, strictly above the configured
    maximum, because the cap is checked strictly before adding a full
    position size. -/
theorem C4_counterexample_investment_cap :
    Reachable cfg4 10000 c4s6 ∧
    cfg4.maxTotalInvestment < c4s6.portfolio.totalInvested := by
  constructor
  · exact Reachable.enter c4s5 0 c4poolE
      (Reachable.enter c4s4 0 c4poolD
        (Reachable.exit c4s3 0 0 c4poolAExit "take profit"
          (Reachable.enter c4s2 0 c4poolC
            (Reachable.enter c4s1 0 c4poolB
              (Reachable.enter (initialManagerState cfg4 10000) 0 c4poolA
                Reachable.init)))))
  · have h1 : c4s1 =
        ⟨⟨10000, 3000, 0, 0,
          [⟨0, "A", 0, 1, 50, 3000, 3000, 50, 0, 0, .active, none, none, none⟩],
          [], 7000, 5⟩, 1⟩ := by
      norm_num [c4s1, enterPosition, canEnterNewPosition, hasPositionInPool,
        initialManagerState, cfg4, DEFAULT_BOT_CONFIG, c4poolA, min_def]
      try simp
    have h2 : c4s2 =
        ⟨⟨10000, 6000, 0, 0,
          [⟨0, "A", 0, 1, 50, 3000, 3000, 50, 0, 0, .active, none, none, none⟩,
           ⟨1, "B2", 0, 1, 50, 3000, 3000, 50, 0, 0, .active, none, none, none⟩],
          [], 4000, 5⟩, 2⟩ := by
      norm_num [c4s2, h1, enterPosition, canEnterNewPosition, hasPositionInPool,
        cfg4, DEFAULT_BOT_CONFIG, c4poolA, c4poolB, min_def]
      try simp
    have h3 : c4s3 =
        ⟨⟨10000, 9000, 0, 0,
          [⟨0, "A", 0, 1, 50, 3000, 3000, 50, 0, 0, .active, none, none, none⟩,
           ⟨1, "B2", 0, 1, 50, 3000, 3000, 50, 0, 0, .active, none, none, none⟩,
           ⟨2, "C2", 0, 1, 50, 3000, 3000, 50, 0, 0, .active, none, none, none⟩],
          [], 1000, 5⟩, 3⟩ := by
      norm_num [c4s3, h2, enterPosition, canEnterNewPosition, hasPositionInPool,
        cfg4, DEFAULT_BOT_CONFIG, c4poolA, c4poolB, c4poolC, min_def]
      try simp
    have h4 : c4s4 =
        ⟨⟨10000, 6000, 0, 0,
          [⟨1, "B2", 0, 1, 50, 3000, 3000, 50, 0, 0, .active, none, none, none⟩,
           ⟨2, "C2", 0, 1, 50, 3000, 3000, 50, 0, 0, .active, none, none, none⟩],
          [⟨0, "A", 0, 1, 50, 3000, 6000, 50, 3000, 100, .exited, some 0, some 2,
            some "take profit"⟩],
          7000, 5⟩, 3⟩ := by
      norm_num [c4s4, h3, exitPosition, removeFirstById, c4poolAExit, c4poolA,
        min_def]
      try simp
    have h5 : c4s5 =
        ⟨⟨10000, 9000, 0, 0,
          [⟨1, "B2", 0, 1, 50, 3000, 3000, 50, 0, 0, .active, none, none, none⟩,
           ⟨2, "C2", 0, 1, 50, 3000, 3000, 50, 0, 0, .active, none, none, none⟩,
           ⟨3, "D2", 0, 1, 50, 3000, 3000, 50, 0, 0, .active, none, none, none⟩],
          [⟨0, "A", 0, 1, 50, 3000, 6000, 50, 3000, 100, .exited, some 0, some 2,
            some "take profit"⟩],
          4000, 5⟩, 4⟩ := by
      norm_num [c4s5, h4, enterPosition, canEnterNewPosition, hasPositionInPool,
        cfg4, DEFAULT_BOT_CONFIG, c4poolA, c4poolD, min_def]
      try simp
    have h6 : c4s6.portfolio.totalInvested = 12000 := by
      norm_num [c4s6, h5, enterPosition, canEnterNewPosition, hasPositionInPool,
        cfg4, DEFAULT_BOT_CONFIG, c4poolA, c4poolE, min_def]
      try simp
    rw [h6]
    norm_num [cfg4, DEFAULT_BOT_CONFIG]

/-- C4 amended: in every reachable state the active position count never
    exceeds the configured maximum, and total invested stays strictly below
    maxTotalInvestment + positionSize (it can overshoot the configured
    maximum by up to one position size, but no further). -/
theorem C4_capacity_invariant (config : BotConfig) (initialCash : ℚ)
    (hpos : 0 ≤ config.positionSize) (hmax : 0 < config.maxTotalInvestment)
    (s : ManagerState) (hs : Reachable config initialCash s) :
    s.portfolio.activePositions.length ≤ config.maxPositions ∧
    s.portfolio.totalInvested < config.maxTotalInvestment + config.positionSize :=
  ⟨(portfolio_invariant config initialCash hpos hmax s hs).1,
   (portfolio_invariant config initialCash hpos hmax s hs).2.1⟩

/-- C4 witness: the invariant applied to the state after one entry in the
    overshoot configuration. -/
theorem C4_capacity_invariant_witness :
    (0 : ℚ) ≤ cfg4.positionSize ∧ (0 : ℚ) < cfg4.maxTotalInvestment ∧
    (c4s1.portfolio.activePositions.length ≤ cfg4.maxPositions ∧
     c4s1.portfolio.totalInvested < cfg4.maxTotalInvestment + cfg4.positionSize) :=
  ⟨by norm_num [cfg4, DEFAULT_BOT_CONFIG],
   by norm_num [cfg4, DEFAULT_BOT_CONFIG],
   C4_capacity_invariant cfg4 10000
     (by norm_num [cfg4, DEFAULT_BOT_CONFIG])
     (by norm_num [cfg4, DEFAULT_BOT_CONFIG]) c4s1
     (Reachable.enter (initialManagerState cfg4 10000) 0 c4poolA Reachable.init)⟩
